import Mathlib

/-!
Verification of the osm-carbon-date imagery metadata logic.

This file gives a shallow embedding, in Lean 4, of the pure core of the
JavaScript sources `src/js/imagery-sources.js`, `src/js/oam-source.js`,
`src/js/config.js` and `src/js/tm-api.js` of the osm-carbon-date repository,
and proves the testable properties of its specification against it.

Modelling conventions:
* JS numbers that carry dates and coordinates are modelled as rationals (ℚ);
  the code only ever adds, subtracts, multiplies, divides and compares them.
* A JS `Date` value (milliseconds since the epoch, at local midnight for
  dates built with `new Date(y, m, d)`) is modelled as a rational millisecond
  count; `null` dates become `Option.none`.
* Host builtins used by the code (`Number.prototype.toString`, `parseInt`,
  `String.prototype.substring`, the civil-calendar arithmetic inside the
  `Date` constructor) are modelled by explicit Lean functions below.
* JS `Set` objects are modelled as lists with membership tests, JS `Map`
  objects as functions with pointwise update.
-/

namespace OsmCarbonDate

/-! ## JS primitive value model -/

/-- A JavaScript value as it can reach `parseEsriDate` (the `SRC_DATE` /
`DATE (YYYYMMDD)` attribute of an ESRI response): `null`/`undefined`, an
integer number, or a string. -/
inductive JsValue where
  | null
  | undefined
  | num (n : Int)
  | str (s : String)
deriving DecidableEq

/-- JS truthiness test (`!dateNum`): `null`, `undefined`, the number `0` and
the empty string are falsy. -/
def JsValue.falsy : JsValue → Bool
  | .null => true
  | .undefined => true
  | .num n => decide (n = 0)
  | .str s => decide (s = "")

/-- The decimal digit character for `n < 10` (models JS digit printing). -/
def digitChar (n : Nat) : Char := Char.ofNat (48 + n)

/-- Fuel-driven decimal printing of a natural number, most significant digit
first; models the digit loop of JS `Number.prototype.toString()`. The fuel is
always called with at least the digit count, see `jsIntToString`. -/
def natCharsAux : Nat → Nat → List Char
  | 0, _ => []
  | fuel + 1, n =>
    if n < 10 then [digitChar n]
    else natCharsAux fuel (n / 10) ++ [digitChar (n % 10)]

/-- Exactly `k` decimal digit characters of `n`, zero padded, most
significant first: the canonical form `natCharsAux` produces on a `k`-digit
number (proof-side companion of `natCharsAux`). -/
def padChars : Nat → Nat → List Char
  | 0, _ => []
  | k + 1, n => padChars k (n / 10) ++ [digitChar (n % 10)]

/-- The digit values of `padChars`. -/
def padVals : Nat → Nat → List Nat
  | 0, _ => []
  | k + 1, n => padVals k (n / 10) ++ [n % 10]

/-- Model of JS `Number.prototype.toString()` for integer values. -/
def jsIntToString (n : Int) : String :=
  if n < 0 then String.mk ('-' :: natCharsAux (n.natAbs + 1) n.natAbs)
  else String.mk (natCharsAux (n.toNat + 1) n.toNat)

/-- Model of JS `dateNum.toString()` on the values `parseEsriDate` can see.
The `null`/`undefined` branches are unreachable in the source (the falsy
check precedes the call) but keep the model total. -/
def JsValue.jsToString : JsValue → String
  | .null => "null"
  | .undefined => "undefined"
  | .num n => jsIntToString n
  | .str s => s

/-- The numeric value of a decimal digit character, `none` otherwise. -/
def digitVal? (c : Char) : Option Nat :=
  if 48 ≤ c.toNat ∧ c.toNat ≤ 57 then some (c.toNat - 48) else none

/-- Longest prefix of decimal digit values (the digit scan of `parseInt`). -/
def takeDigitVals : List Char → List Nat
  | [] => []
  | c :: cs =>
    match digitVal? c with
    | some d => d :: takeDigitVals cs
    | none => []

/-- Accumulate a digit list into a natural number, most significant first. -/
def digitsToNat (acc : Nat) : List Nat → Nat
  | [] => acc
  | d :: ds => digitsToNat (acc * 10 + d) ds

/-- Model of the JS builtin `parseInt(s)` (decimal, as on the digit strings
produced in `parseEsriDate`): an optional sign followed by a longest digit
prefix; `none` models the `NaN` result. Leading-whitespace trimming is
omitted — no call site can produce it. -/
def jsParseInt (s : String) : Option Int :=
  match s.data with
  | [] => none
  | c :: rest =>
    if c = '-' then
      match takeDigitVals rest with
      | [] => none
      | d :: ds => some (-(digitsToNat 0 (d :: ds) : Int))
    else if c = '+' then
      match takeDigitVals rest with
      | [] => none
      | d :: ds => some ((digitsToNat 0 (d :: ds) : Int))
    else
      match takeDigitVals (c :: rest) with
      | [] => none
      | d :: ds => some ((digitsToNat 0 (d :: ds) : Int))

/-- Model of JS `s.substring(a, b)` for the in-range index pairs used in
`parseEsriDate`: the characters of positions `[a, b)`. -/
def jsSubstring (s : String) (a b : Nat) : String :=
  String.mk ((s.data.drop a).take (b - a))

/-! ## Date model -/

/-- Days from 1970-01-01 to the civil date `(y, m, d)` with month `m` in
`1..12`; linear in `d`, so day overflow behaves exactly as the rollover of
the JS `Date` constructor. Models the calendar arithmetic the host performs
for `new Date(year, month, day)`. -/
def daysFromCivil (y m d : Int) : Int :=
  let y2 := if m ≤ 2 then y - 1 else y
  let era := y2.fdiv 400
  let yoe := y2 - era * 400
  let mp := (m + 9).emod 12
  let doy := (153 * mp + 2).fdiv 5 + (d - 1)
  let doe := yoe * 365 + yoe.fdiv 4 - yoe.fdiv 100 + doy
  era * 146097 + doe - 719468

/-- Milliseconds in a day. -/
def msPerDay : ℚ := 86400000

/-- The time value (epoch milliseconds) of the JS expression
`new Date(y, m0, d)` with 0-based month `m0` (any integer: JS normalises the
month by rollover into the year) in a time zone whose local midnight is
`tz` milliseconds after UTC midnight. -/
def jsDateMs (tz : ℚ) (y m0 d : Int) : ℚ :=
  let yy := y + m0.fdiv 12
  let mm := m0.emod 12
  (daysFromCivil yy (mm + 1) d : ℚ) * msPerDay + tz

/-- Result of `parseEsriDate` when it does not return `null`: the arguments
the source passes to `new Date(year, month, day)`, or `invalid` when a
`parseInt` produced `NaN` (the source then returns an Invalid Date object,
still not `null`). -/
inductive EsriDate where
  | mk (year month day : Int)
  | invalid
deriving DecidableEq

/-- `ImagerySource.parseEsriDate` (src/js/imagery-sources.js:13-23): parse
the ESRI `YYYYMMDD` date format; `none` models the `null` returns. -/
def parseEsriDate (v : JsValue) : Option EsriDate :=
  if v.falsy || decide (v = .str "Null") || decide (v = .str "null") then none
  else
    let dateStr := v.jsToString
    if dateStr.length ≠ 8 then none
    else
      match jsParseInt (jsSubstring dateStr 0 4),
            jsParseInt (jsSubstring dateStr 4 6),
            jsParseInt (jsSubstring dateStr 6 8) with
      | some year, some month, some day => some (.mk year (month - 1) day)
      | _, _, _ => some .invalid

/-! ## Age classifier (CONFIG and ImagerySource) -/

/-- `CONFIG.ageThresholds` (src/js/config.js:44-48), in years. -/
structure AgeThresholds where
  fresh : ℚ
  medium : ℚ
  old : ℚ

/-- The configured thresholds: 1, 2 and 3 years. -/
def ageThresholds : AgeThresholds := ⟨1, 2, 3⟩

/-- `CONFIG.ageColors` (src/js/config.js:51-57). -/
structure AgeColors where
  fresh : String
  medium : String
  old : String
  veryOld : String
  unknown : String

/-- The configured age colors. -/
def ageColors : AgeColors := ⟨"#22c55e", "#eab308", "#f97316", "#ef4444", "#9ca3af"⟩

/-- Milliseconds in a year as the source computes it:
`1000 * 60 * 60 * 24 * 365.25`. -/
def msPerYear : ℚ := 1000 * 60 * 60 * 24 * (36525 / 100)

/-- `ImagerySource.getAgeInYears` (src/js/imagery-sources.js:39-44): age of a
nullable capture date, in years, against the current time `now` (the source
reads `new Date()`; the embedding passes it explicitly). -/
def getAgeInYears (now : ℚ) : Option ℚ → Option ℚ
  | none => none
  | some date => some ((now - date) / msPerYear)

/-- `ImagerySource.getAgeColor` (src/js/imagery-sources.js:49-57). -/
def getAgeColor (now : ℚ) (date : Option ℚ) : String :=
  match getAgeInYears now date with
  | none => ageColors.unknown
  | some age =>
    if age < ageThresholds.fresh then ageColors.fresh
    else if age < ageThresholds.medium then ageColors.medium
    else if age < ageThresholds.old then ageColors.old
    else ageColors.veryOld

/-- `ImagerySource.getAgeClass` (src/js/imagery-sources.js:62-70). -/
def getAgeClass (now : ℚ) (date : Option ℚ) : String :=
  match getAgeInYears now date with
  | none => ""
  | some age =>
    if age < ageThresholds.fresh then "fresh"
    else if age < ageThresholds.medium then "medium"
    else if age < ageThresholds.old then "old"
    else "very-old"

/-- The if-chain of `getAgeClass` as a function of the age itself (the
source inlines it on `getAgeInYears(date)`); `getAgeClass now (some d)`
is definitionally `classOfAge ((now - d) / msPerYear)`. -/
def classOfAge (a : ℚ) : String :=
  if a < ageThresholds.fresh then "fresh"
  else if a < ageThresholds.medium then "medium"
  else if a < ageThresholds.old then "old"
  else "very-old"

/-- The if-chain of `getAgeColor` as a function of the age itself. -/
def colorOfAge (a : ℚ) : String :=
  if a < ageThresholds.fresh then ageColors.fresh
  else if a < ageThresholds.medium then ageColors.medium
  else if a < ageThresholds.old then ageColors.old
  else ageColors.veryOld

/-- Position of a bucket class name in increasing age order (the empty
string is the unknown bucket and gets a sentinel above the rest). -/
def bucketIndex : String → Nat
  | "fresh" => 0
  | "medium" => 1
  | "old" => 2
  | "very-old" => 3
  | _ => 4

/-- The color the configuration associates to each bucket class name. -/
def classColor : String → String
  | "fresh" => ageColors.fresh
  | "medium" => ageColors.medium
  | "old" => ageColors.old
  | "very-old" => ageColors.veryOld
  | _ => ageColors.unknown

/-! ## OpenAerialMap source (OamSource, src/js/oam-source.js) -/

/-- `CONFIG.oam.maxImageAreaDeg2` (src/js/config.js:82): 1.0 square degree. -/
def maxImageAreaDeg2 : ℚ := 1

/-- A nested GeoJSON coordinate array as `OamSource._getBbox` walks it: a
leaf is a coordinate pair (`typeof coords[0] === 'number'`), otherwise an
array of nested arrays, modelled by `nil`/`cons`. -/
inductive Coords where
  | pt (lon lat : ℚ)
  | nil
  | cons (head tail : Coords)
deriving DecidableEq

/-- A bounding box `[minLon, minLat, maxLon, maxLat]` = `[west, south, east,
north]` as `_getBbox` returns it. -/
structure Bbox where
  minLon : ℚ
  minLat : ℚ
  maxLon : ℚ
  maxLat : ℚ
deriving DecidableEq

/-- The `process` closure of `OamSource._getBbox`
(src/js/oam-source.js:429-438): fold every leaf coordinate into the running
min/max accumulator. A `none` accumulator models the `Infinity` initial
values before any point was seen. -/
def processBbox : Coords → Option Bbox → Option Bbox
  | .pt lon lat, none => some ⟨lon, lat, lon, lat⟩
  | .pt lon lat, some b =>
      some ⟨min b.minLon lon, min b.minLat lat, max b.maxLon lon, max b.maxLat lat⟩
  | .nil, acc => acc
  | .cons c rest, acc => processBbox rest (processBbox c acc)

/-- `OamSource._getBbox` (src/js/oam-source.js:423-444): `none` both for a
missing geometry/coordinates and for a geometry without any coordinate pair
(the `!isFinite(minLon)` check). -/
def getBbox (geometry : Option Coords) : Option Bbox :=
  match geometry with
  | none => none
  | some coords => processBbox coords none

/-- A raw catalog feature as `loadAllImages` reads it. `acquisitionStart` is
the result of `parseOamDate(props.acquisition_start)` represented in epoch
milliseconds: the host ISO-8601 `Date` parsing itself is not re-modelled, a
missing or unparseable string is `none` (exactly when `parseOamDate` returns
`null`). `uuid` is the collapsed `props.uuid || props._id || ''`. UI-only
string fields (thumbnail, tms, pageUrl) are omitted. -/
structure RawOamFeature where
  geometry : Option Coords
  acquisitionStart : Option ℚ
  uuid : String
deriving DecidableEq

/-- `OamSource.parseOamDate` (src/js/oam-source.js:25-30) on the modelled
date domain: the null/NaN cases are already `none`. -/
def parseOamDate (v : Option ℚ) : Option ℚ := v

/-- An enriched OAM feature as `loadAllImages` builds it
(src/js/oam-source.js:85-102), restricted to the modelled fields. -/
structure OamFeature where
  geometry : Option Coords
  oamId : String
  parsedDate : Option ℚ
  ageColor : String
  ageClass : String
  ageYears : Option ℚ
  bbox : Option Bbox
deriving DecidableEq

/-- A centroid label point as `loadAllImages` builds it
(src/js/oam-source.js:107-119). -/
structure Centroid where
  lon : ℚ
  lat : ℚ
  oamId : String
  ageColor : String
deriving DecidableEq

/-- One iteration of the `for (const f of rawFeatures)` loop of
`OamSource.loadAllImages` (src/js/oam-source.js:60-120), threading the
`_allFeatures`/`_allCentroids` accumulators: oversized features `continue`,
the rest are enriched and (when a bbox exists) get one centroid. -/
def loadOne (now maxArea : ℚ) (st : List OamFeature × List Centroid)
    (f : RawOamFeature) : List OamFeature × List Centroid :=
  let bbox := getBbox f.geometry
  let oversized := match bbox with
    | some b => decide ((b.maxLon - b.minLon) * (b.maxLat - b.minLat) > maxArea)
    | none => false
  if oversized then st
  else
    let acqDate := parseOamDate f.acquisitionStart
    let ageColor := getAgeColor now acqDate
    let ageClass := getAgeClass now acqDate
    let oamId := if f.uuid ≠ "" then f.uuid else "oam-" ++ toString st.1.length
    let enriched : OamFeature :=
      ⟨f.geometry, oamId, acqDate, ageColor, ageClass, getAgeInYears now acqDate, bbox⟩
    let centroids := match bbox with
      | some b => st.2 ++ [⟨(b.minLon + b.maxLon) / 2, (b.minLat + b.maxLat) / 2, oamId, ageColor⟩]
      | none => st.2
    (st.1 ++ [enriched], centroids)

/-- The pure core of `OamSource.loadAllImages` (src/js/oam-source.js:37-125):
given the raw catalog features (already fetched and JSON-decoded), produce
the session feature list and centroid list. -/
def loadAllImages (now maxArea : ℚ) (raw : List RawOamFeature) :
    List OamFeature × List Centroid :=
  raw.foldl (loadOne now maxArea) ([], [])

/-- A viewport `[west, south, east, north]`. -/
structure Bounds where
  west : ℚ
  south : ℚ
  east : ℚ
  north : ℚ
deriving DecidableEq

/-- The filter predicate of `OamSource.getFeaturesInBounds`
(src/js/oam-source.js:134-139): features without a bbox are dropped, the
rest pass the axis-aligned overlap test
`bbox[0] < east && bbox[2] > west && bbox[1] < north && bbox[3] > south`. -/
def inBoundsTest (bounds : Bounds) (f : OamFeature) : Bool :=
  match f.bbox with
  | none => false
  | some bbox =>
      decide (bbox.minLon < bounds.east) && decide (bbox.maxLon > bounds.west) &&
      decide (bbox.minLat < bounds.north) && decide (bbox.maxLat > bounds.south)

/-- `OamSource.getFeaturesInBounds` (src/js/oam-source.js:132-140), with the
cached `_allFeatures` passed explicitly. -/
def getFeaturesInBounds (allFeatures : List OamFeature) (bounds : Bounds) :
    List OamFeature :=
  allFeatures.filter (inBoundsTest bounds)

/-- The centroid the specification says `loadAllImages` attaches to an
enriched feature: the midpoint of its bounding box, or nothing when the
feature has no bounding box. Spec-side characterisation, to be compared
with the centroid list the code builds. -/
def specCentroidOf (f : OamFeature) : Option Centroid :=
  f.bbox.map fun b =>
    ⟨(b.minLon + b.maxLon) / 2, (b.minLat + b.maxLat) / 2, f.oamId, f.ageColor⟩

/-! ## TmApi cache (src/js/tm-api.js) -/

/-- `TmApi._cacheTimeout` (src/js/tm-api.js): `5 * 60 * 1000` milliseconds. -/
def cacheTimeout : ℚ := 5 * 60 * 1000

/-- An entry of the `TmApi._cache` map: `{ data, timestamp }`. -/
structure CacheEntry (α : Type) where
  data : α
  timestamp : ℚ

/-- The `TmApi._cache` JS `Map`, modelled as a function from keys. -/
def TmCache (α : Type) : Type := String → Option (CacheEntry α)

/-- `TmApi._getCache` (src/js/tm-api.js:253-260): return the stored data if
the entry exists and `now - cached.timestamp < _cacheTimeout`, else `null`.
`now` is the source's `Date.now()` passed explicitly. -/
def getCache {α : Type} (cache : TmCache α) (key : String) (now : ℚ) : Option α :=
  match cache key with
  | some cached =>
      if now - cached.timestamp < cacheTimeout then some cached.data else none
  | none => none

/-- `TmApi._setCache` (src/js/tm-api.js:265-267):
`this._cache.set(key, { data, timestamp: Date.now() })`. -/
def setCache {α : Type} (cache : TmCache α) (key : String) (data : α) (now : ℚ) :
    TmCache α :=
  fun k => if k = key then some ⟨data, now⟩ else cache k

/-! ## ESRI identify merge (ImagerySource.fetchEsriMetadataViaIdentify) -/

/-- A feature of one identify response, as the merge loop of
`fetchEsriMetadataViaIdentify` reads it: only `properties.OBJECTID` is
inspected; every other property and the geometry are collapsed into an
opaque `payload` string. -/
structure EsriFeature where
  objectId : Int
  payload : String
deriving DecidableEq

/-- One iteration of the inner `for (const feature of result.features)` loop
(src/js/imagery-sources.js:272-279), threading `(seenIds, loadedIds,
allFeatures)`: a feature is kept iff its `OBJECTID` is neither in the
per-batch `seenIds` set nor in the module-level `loadedIds` set. -/
def mergeStep (st : List Int × List Int × List EsriFeature) (f : EsriFeature) :
    List Int × List Int × List EsriFeature :=
  let (seen, loaded, acc) := st
  if seen.contains f.objectId || loaded.contains f.objectId then st
  else (f.objectId :: seen, f.objectId :: loaded, acc ++ [f])

/-- The fan-in merge of `ImagerySource.fetchEsriMetadataViaIdentify`
(src/js/imagery-sources.js:262-285): start from an empty per-batch `seenIds`
set and the current module-level `loadedIds` set, fold over the identify
results of all sample points. Returns the final `(seenIds, loadedIds,
allFeatures)`. -/
def mergeIdentifyResults (loadedIds : List Int)
    (results : List (List EsriFeature)) : List Int × List Int × List EsriFeature :=
  results.foldl (fun st fs => fs.foldl mergeStep st) ([], loadedIds, [])

/-! ## Concrete scenario inputs from the specification -/

/-- A cached feature whose stored bbox is `[15, 15, 25, 25]`. -/
def sampleFeatureA : OamFeature := ⟨none, "a", none, "", "", none, some ⟨15, 15, 25, 25⟩⟩

/-- A cached feature whose stored bbox is `[25, 25, 30, 30]`. -/
def sampleFeatureB : OamFeature := ⟨none, "b", none, "", "", none, some ⟨25, 25, 30, 30⟩⟩

/-- A raw Provider B feature whose polygon bbox is `[0,0,5,1]`: area
`5.0 deg²`. -/
def oversizedRaw : RawOamFeature :=
  ⟨some (.cons (.cons (.pt 0 0) (.cons (.pt 5 0) (.cons (.pt 5 1)
      (.cons (.pt 0 1) (.cons (.pt 0 0) .nil))))) .nil),
   none, "big"⟩

/-- A raw Provider B feature with a null geometry (GeoJSON allows it; the
source guards `!geometry` in `_getBbox`). -/
def noGeomRaw : RawOamFeature := ⟨none, none, "u1"⟩

/-- A raw Provider B feature whose geometry is the single point `(0, 0)`
(bbox `[0,0,0,0]`, area `0`). -/
def pointRaw : RawOamFeature := ⟨some (.pt 0 0), none, "s"⟩

/-! ## Age classifier lemmas -/

theorem getAgeClass_some (now d : ℚ) :
    getAgeClass now (some d) = classOfAge ((now - d) / msPerYear) := rfl

theorem getAgeColor_some (now d : ℚ) :
    getAgeColor now (some d) = colorOfAge ((now - d) / msPerYear) := rfl

theorem classOfAge_fresh_iff (a : ℚ) : classOfAge a = "fresh" ↔ a < 1 := by
  simp only [classOfAge, ageThresholds]
  split_ifs with h1 h2 h3
  · exact iff_of_true rfl h1
  · exact iff_of_false (by decide) h1
  · exact iff_of_false (by decide) h1
  · exact iff_of_false (by decide) h1

theorem classOfAge_medium_iff (a : ℚ) : classOfAge a = "medium" ↔ 1 ≤ a ∧ a < 2 := by
  simp only [classOfAge, ageThresholds]
  split_ifs with h1 h2 h3
  · exact iff_of_false (by decide) (by rintro ⟨hl, hr⟩; linarith)
  · exact iff_of_true rfl ⟨le_of_not_lt h1, h2⟩
  · exact iff_of_false (by decide) (by rintro ⟨hl, hr⟩; linarith)
  · exact iff_of_false (by decide) (by rintro ⟨hl, hr⟩; linarith)

theorem classOfAge_old_iff (a : ℚ) : classOfAge a = "old" ↔ 2 ≤ a ∧ a < 3 := by
  simp only [classOfAge, ageThresholds]
  split_ifs with h1 h2 h3
  · exact iff_of_false (by decide) (by rintro ⟨hl, hr⟩; linarith)
  · exact iff_of_false (by decide) (by rintro ⟨hl, hr⟩; linarith)
  · exact iff_of_true rfl ⟨le_of_not_lt h2, h3⟩
  · exact iff_of_false (by decide) (by rintro ⟨hl, hr⟩; linarith)

theorem classOfAge_veryOld_iff (a : ℚ) : classOfAge a = "very-old" ↔ 3 ≤ a := by
  simp only [classOfAge, ageThresholds]
  split_ifs with h1 h2 h3
  · exact iff_of_false (by decide) (by intro hc; linarith)
  · exact iff_of_false (by decide) (by intro hc; linarith)
  · exact iff_of_false (by decide) (by intro hc; linarith)
  · exact iff_of_true rfl (le_of_not_lt h3)

theorem colorOfAge_eq_classColor (a : ℚ) : colorOfAge a = classColor (classOfAge a) := by
  simp only [colorOfAge, classOfAge]
  split_ifs <;> decide

theorem bucketIndex_classOfAge_mono {a b : ℚ} (h : a ≤ b) :
    bucketIndex (classOfAge a) ≤ bucketIndex (classOfAge b) := by
  simp only [classOfAge, ageThresholds]
  split_ifs <;> first | decide | (exfalso; linarith)

/-- C1: for every non-null capture date, `getAgeClass`/`getAgeColor` with
`CONFIG.ageThresholds` assign bucket fresh when age < 1 year, medium when
1 ≤ age < 2, old when 2 ≤ age < 3, veryOld when age ≥ 3 (class
"very-old"), the color always matching the class, and the bucket is
monotonic in age (an older capture date never gets an earlier bucket), with
boundaries exactly at 1, 2 and 3 years. -/
theorem ageClass_bucket_spec (now d : ℚ) :
    (getAgeClass now (some d) = "fresh" ↔ (now - d) / msPerYear < 1) ∧
    (getAgeClass now (some d) = "medium" ↔
      1 ≤ (now - d) / msPerYear ∧ (now - d) / msPerYear < 2) ∧
    (getAgeClass now (some d) = "old" ↔
      2 ≤ (now - d) / msPerYear ∧ (now - d) / msPerYear < 3) ∧
    (getAgeClass now (some d) = "very-old" ↔ 3 ≤ (now - d) / msPerYear) ∧
    getAgeColor now (some d) = classColor (getAgeClass now (some d)) ∧
    (∀ dOlder : ℚ, dOlder ≤ d →
      bucketIndex (getAgeClass now (some d)) ≤
        bucketIndex (getAgeClass now (some dOlder))) := by
  refine ⟨?_, ?_, ?_, ?_, ?_, ?_⟩
  · rw [getAgeClass_some]; exact classOfAge_fresh_iff _
  · rw [getAgeClass_some]; exact classOfAge_medium_iff _
  · rw [getAgeClass_some]; exact classOfAge_old_iff _
  · rw [getAgeClass_some]; exact classOfAge_veryOld_iff _
  · rw [getAgeColor_some, getAgeClass_some]; exact colorOfAge_eq_classColor _
  · intro dOlder hle
    rw [getAgeClass_some, getAgeClass_some]
    apply bucketIndex_classOfAge_mono
    have hpos : (0 : ℚ) < msPerYear := by norm_num [msPerYear]
    apply div_le_div_of_nonneg_right ?_ hpos.le
    linarith

/-- Witness for C1: the bucket of a capture date equal to the viewing
instant is no later than the bucket of a date one millisecond older. -/
theorem ageClass_bucket_spec_witness :
    bucketIndex (getAgeClass 0 (some 0)) ≤ bucketIndex (getAgeClass 0 (some (-1))) :=
  (ageClass_bucket_spec 0 0).2.2.2.2.2 (-1) (by norm_num)

/-- C2: `getAgeInYears` is exactly the millisecond difference divided by
`1000 * 60 * 60 * 24 * 365.25`, and the spec scenario holds: `20220205`
parses to the local date 2022-02-05, and a viewer on 2026-02-05 (same time
zone offset `tz`) computes an age of exactly 4.0 years, hence bucket
veryOld ("very-old"). -/
theorem ageInYears_formula_spec (now d tz : ℚ) :
    getAgeInYears now (some d) =
      some ((now - d) / (1000 * 60 * 60 * 24 * (36525 / 100))) ∧
    parseEsriDate (.num 20220205) = some (.mk 2022 1 5) ∧
    getAgeInYears (jsDateMs tz 2026 1 5) (some (jsDateMs tz 2022 1 5)) = some 4 ∧
    getAgeClass (jsDateMs tz 2026 1 5) (some (jsDateMs tz 2022 1 5)) = "very-old" := by
  have hdiff : jsDateMs tz 2026 1 5 - jsDateMs tz 2022 1 5 = 1461 * msPerDay := by
    simp only [jsDateMs]
    have h1 : daysFromCivil (2026 + (1 : Int).fdiv 12) ((1 : Int).emod 12 + 1) 5 = 20489 := by
      decide
    have h2 : daysFromCivil (2022 + (1 : Int).fdiv 12) ((1 : Int).emod 12 + 1) 5 = 19028 := by
      decide
    rw [h1, h2]
    push_cast
    ring
  have hage : (jsDateMs tz 2026 1 5 - jsDateMs tz 2022 1 5) / msPerYear = 4 := by
    rw [hdiff]; norm_num [msPerDay, msPerYear]
  refine ⟨rfl, by decide, ?_, ?_⟩
  · show some ((jsDateMs tz 2026 1 5 - jsDateMs tz 2022 1 5) / msPerYear) = some 4
    rw [hage]
  · rw [getAgeClass_some, hage]
    decide

/-- C7: a null capture date yields ageYears null and the unknown bucket
(unknown color, empty class string, as nothing else maps to them); dates
that fail to parse (`parseOamDate` returning null) classify as unknown; and
the classifier is total — on every input it returns one of the five
configured buckets, never failing. -/
theorem classifier_unknown_total (now : ℚ) :
    getAgeInYears now none = none ∧
    getAgeColor now none = ageColors.unknown ∧
    getAgeClass now none = "" ∧
    (∀ s : Option ℚ, parseOamDate s = none → getAgeColor now (parseOamDate s) = ageColors.unknown ∧
      getAgeClass now (parseOamDate s) = "" ∧ getAgeInYears now (parseOamDate s) = none) ∧
    (∀ date : Option ℚ, getAgeClass now date = "" ↔ getAgeInYears now date = none) ∧
    (∀ date : Option ℚ,
      getAgeColor now date = ageColors.unknown ∨ getAgeColor now date = ageColors.fresh ∨
      getAgeColor now date = ageColors.medium ∨ getAgeColor now date = ageColors.old ∨
      getAgeColor now date = ageColors.veryOld) ∧
    (∀ date : Option ℚ,
      getAgeClass now date = "" ∨ getAgeClass now date = "fresh" ∨
      getAgeClass now date = "medium" ∨ getAgeClass now date = "old" ∨
      getAgeClass now date = "very-old") := by
  refine ⟨rfl, rfl, rfl, ?_, ?_, ?_, ?_⟩
  · intro s hs
    rw [hs]
    exact ⟨rfl, rfl, rfl⟩
  · intro date
    cases date with
    | none => simp [getAgeClass, getAgeInYears]
    | some d =>
      rw [getAgeClass_some]
      simp only [getAgeInYears, reduceCtorEq, iff_false]
      simp only [classOfAge]
      split_ifs <;> decide
  · intro date
    cases date with
    | none => left; rfl
    | some d =>
      rw [getAgeColor_some]
      simp only [colorOfAge]
      split_ifs
      · right; left; rfl
      · right; right; left; rfl
      · right; right; right; left; rfl
      · right; right; right; right; rfl
  · intro date
    cases date with
    | none => left; rfl
    | some d =>
      rw [getAgeClass_some]
      simp only [classOfAge]
      split_ifs
      · right; left; rfl
      · right; right; left; rfl
      · right; right; right; left; rfl
      · right; right; right; right; rfl

/-- Witness for C7 at a concrete null input. -/
theorem classifier_unknown_total_witness :
    getAgeColor 0 (parseOamDate none) = ageColors.unknown ∧
    getAgeClass 0 (parseOamDate none) = "" ∧
    getAgeInYears 0 (parseOamDate none) = none :=
  (classifier_unknown_total 0).2.2.2.1 none rfl

/-- C5: a read of a key strictly less than the fixed 5-minute TTL after the
write returns exactly the stored payload, a read at or after the TTL is a
miss (`null`), and the write touches no other key — expiry is only ever
checked lazily on the read path. -/
theorem cache_ttl_spec {α : Type} (cache : TmCache α) (key : String) (data : α)
    (tWrite tRead : ℚ) :
    (tRead - tWrite < cacheTimeout →
      getCache (setCache cache key data tWrite) key tRead = some data) ∧
    (cacheTimeout ≤ tRead - tWrite →
      getCache (setCache cache key data tWrite) key tRead = none) ∧
    (∀ k2 : String, k2 ≠ key → setCache cache key data tWrite k2 = cache k2) := by
  refine ⟨?_, ?_, ?_⟩
  · intro h
    simp [getCache, setCache, h]
  · intro h
    simp [getCache, setCache, not_lt.mpr h]
  · intro k2 hk
    simp [setCache, hk]

/-- Witness for C5: a write at time 0, read back at 1 ms (hit with the
stored payload) and at exactly 5 minutes (miss); an untouched key stays
empty. -/
theorem cache_ttl_spec_witness :
    getCache (setCache (fun _ => none) "k" (7 : ℕ) 0) "k" 1 = some 7 ∧
    getCache (setCache (fun _ => none) "k" (7 : ℕ) 0) "k" 300000 = none ∧
    setCache (fun _ => none) "k" (7 : ℕ) 0 "other" = none :=
  ⟨(cache_ttl_spec (fun _ => none) "k" 7 0 1).1 (by norm_num [cacheTimeout]),
   (cache_ttl_spec (fun _ => none) "k" 7 0 300000).2.1 (by norm_num [cacheTimeout]),
   (cache_ttl_spec (fun _ => none) "k" 7 0 0).2.2 "other" (by decide)⟩

/-- C8: the viewport filter is idempotent — filtering an already-filtered
feature list by the same bounding box returns the same list. -/
theorem featuresInBounds_idempotent (fs : List OamFeature) (bounds : Bounds) :
    getFeaturesInBounds (getFeaturesInBounds fs bounds) bounds =
      getFeaturesInBounds fs bounds := by
  simp only [getFeaturesInBounds, List.filter_filter, Bool.and_self]

/-- C3: `getFeaturesInBounds` returns exactly the cached features whose
stored bbox `[minLon, minLat, maxLon, maxLat]` passes the axis-aligned
overlap test against the viewport `[west, south, east, north]`; the spec
scenario holds: against viewport `[10,10,20,20]` the feature with bbox
`[15,15,25,25]` is kept and the one with bbox `[25,25,30,30]` is not. -/
theorem featuresInBounds_spec :
    (∀ (fs : List OamFeature) (bounds : Bounds) (f : OamFeature),
      f ∈ getFeaturesInBounds fs bounds ↔
        f ∈ fs ∧ ∃ bb : Bbox, f.bbox = some bb ∧
          bb.minLon < bounds.east ∧ bb.maxLon > bounds.west ∧
          bb.minLat < bounds.north ∧ bb.maxLat > bounds.south) ∧
    getFeaturesInBounds [sampleFeatureA, sampleFeatureB] ⟨10, 10, 20, 20⟩ =
      [sampleFeatureA] := by
  constructor
  · intro fs bounds f
    rw [getFeaturesInBounds, List.mem_filter]
    refine and_congr_right fun _ => ?_
    cases hb : f.bbox with
    | none => simp [inBoundsTest, hb]
    | some bb => simp [inBoundsTest, hb, and_assoc]
  · decide

/-! ## ESRI identify merge lemmas -/

theorem contains_true_iff (l : List Int) (a : Int) : l.contains a = true ↔ a ∈ l := by
  simp [List.contains, List.elem_iff]

theorem mergeStep_inv (st : List Int × List Int × List EsriFeature) (f : EsriFeature)
    (h1 : (st.2.2.map EsriFeature.objectId).Nodup)
    (h2 : ∀ g ∈ st.2.2, g.objectId ∈ st.1) :
    ((mergeStep st f).2.2.map EsriFeature.objectId).Nodup ∧
      ∀ g ∈ (mergeStep st f).2.2, g.objectId ∈ (mergeStep st f).1 := by
  obtain ⟨seen, loaded, acc⟩ := st
  simp only [mergeStep]
  by_cases hc : (seen.contains f.objectId || loaded.contains f.objectId) = true
  · rw [if_pos hc]
    exact ⟨h1, h2⟩
  · rw [if_neg hc]
    have hnotseen : f.objectId ∉ seen := by
      intro hmem
      exact hc (by simp [contains_true_iff, hmem])
    constructor
    · simp only [List.map_append, List.map_cons, List.map_nil]
      simp only [List.nodup_append, List.nodup_cons, List.nodup_nil, and_true, true_and]
      refine ⟨h1, by simp, ?_⟩
      intro x hx hx1
      rcases List.mem_map.mp hx with ⟨g, hg, hgid⟩
      simp only [List.mem_singleton] at hx1
      exact hnotseen (hx1 ▸ hgid ▸ h2 g hg)
    · intro g hg
      rcases List.mem_append.mp hg with hg1 | hg2
      · exact List.mem_cons_of_mem _ (h2 g hg1)
      · simp only [List.mem_singleton] at hg2
        subst hg2
        exact List.mem_cons_self _ _

theorem foldl_mergeStep_inv (fs : List EsriFeature)
    (st : List Int × List Int × List EsriFeature)
    (h1 : (st.2.2.map EsriFeature.objectId).Nodup)
    (h2 : ∀ g ∈ st.2.2, g.objectId ∈ st.1) :
    ((fs.foldl mergeStep st).2.2.map EsriFeature.objectId).Nodup ∧
      ∀ g ∈ (fs.foldl mergeStep st).2.2, g.objectId ∈ (fs.foldl mergeStep st).1 := by
  induction fs generalizing st with
  | nil => exact ⟨h1, h2⟩
  | cons f fs ih =>
    simp only [List.foldl_cons]
    obtain ⟨g1, g2⟩ := mergeStep_inv st f h1 h2
    exact ih _ g1 g2

theorem mergeOuter_inv (results : List (List EsriFeature))
    (st : List Int × List Int × List EsriFeature)
    (h1 : (st.2.2.map EsriFeature.objectId).Nodup)
    (h2 : ∀ g ∈ st.2.2, g.objectId ∈ st.1) :
    (((results.foldl (fun st fs => fs.foldl mergeStep st) st).2.2.map
        EsriFeature.objectId).Nodup) ∧
      ∀ g ∈ (results.foldl (fun st fs => fs.foldl mergeStep st) st).2.2,
        g.objectId ∈ (results.foldl (fun st fs => fs.foldl mergeStep st) st).1 := by
  induction results generalizing st with
  | nil => exact ⟨h1, h2⟩
  | cons fs rest ih =>
    simp only [List.foldl_cons]
    obtain ⟨g1, g2⟩ := foldl_mergeStep_inv fs st h1 h2
    exact ih _ g1 g2

/-- C6: within one batch of `fetchEsriMetadataViaIdentify` the merged result
never contains two features with the same `OBJECTID` — whatever the prior
`loadedIds` and whatever the per-point identify results, including the same
footprint arriving from several sample points, as in the concrete run where
the same feature comes back from two points and is merged once. -/
theorem identify_merge_dedup (loadedIds : List Int)
    (results : List (List EsriFeature)) :
    ((mergeIdentifyResults loadedIds results).2.2.map EsriFeature.objectId).Nodup ∧
    (mergeIdentifyResults [] [[⟨1, "x"⟩], [⟨1, "x"⟩]]).2.2 = [⟨1, "x"⟩] := by
  refine ⟨?_, by decide⟩
  exact (mergeOuter_inv results ([], loadedIds, []) (by simp) (by simp)).1

/-! ## Provider B load-time lemmas -/

theorem loadOne_skip (now maxArea : ℚ) (st : List OamFeature × List Centroid)
    (f : RawOamFeature) (b : Bbox) (hbb : getBbox f.geometry = some b)
    (hgt : (b.maxLon - b.minLon) * (b.maxLat - b.minLat) > maxArea) :
    loadOne now maxArea st f = st := by
  simp only [loadOne, hbb, decide_eq_true_eq]
  rw [if_pos hgt]

theorem loadOne_inv (now maxArea : ℚ) (st : List OamFeature × List Centroid)
    (f : RawOamFeature)
    (h1 : ∀ ef ∈ st.1, ∀ b : Bbox, ef.bbox = some b →
      (b.maxLon - b.minLon) * (b.maxLat - b.minLat) ≤ maxArea)
    (h2 : st.2 = st.1.filterMap specCentroidOf) :
    (∀ ef ∈ (loadOne now maxArea st f).1, ∀ b : Bbox, ef.bbox = some b →
      (b.maxLon - b.minLon) * (b.maxLat - b.minLat) ≤ maxArea) ∧
    (loadOne now maxArea st f).2 = (loadOne now maxArea st f).1.filterMap specCentroidOf := by
  rcases hbb : getBbox f.geometry with _ | b
  · simp only [loadOne, hbb, Bool.false_eq_true, if_false]
    constructor
    · intro ef hef bb hbbx
      rcases List.mem_append.mp hef with h | h
      · exact h1 ef h bb hbbx
      · simp only [List.mem_singleton] at h
        subst h
        simp only at hbbx
        exact absurd hbbx (by simp)
    · rw [h2, List.filterMap_append]
      simp [specCentroidOf]
  · by_cases harea : (b.maxLon - b.minLon) * (b.maxLat - b.minLat) > maxArea
    · rw [loadOne_skip now maxArea st f b hbb harea]
      exact ⟨h1, h2⟩
    · simp only [loadOne, hbb, decide_eq_true_eq]
      rw [if_neg harea]
      constructor
      · intro ef hef bb hbbx
        rcases List.mem_append.mp hef with h | h
        · exact h1 ef h bb hbbx
        · simp only [List.mem_singleton] at h
          subst h
          simp only [Option.some.injEq] at hbbx
          subst hbbx
          exact le_of_not_lt harea
      · rw [h2, List.filterMap_append]
        simp [specCentroidOf]

theorem loadAll_foldl_inv (now maxArea : ℚ) (raw : List RawOamFeature)
    (st : List OamFeature × List Centroid)
    (h1 : ∀ ef ∈ st.1, ∀ b : Bbox, ef.bbox = some b →
      (b.maxLon - b.minLon) * (b.maxLat - b.minLat) ≤ maxArea)
    (h2 : st.2 = st.1.filterMap specCentroidOf) :
    (∀ ef ∈ (raw.foldl (loadOne now maxArea) st).1, ∀ b : Bbox, ef.bbox = some b →
      (b.maxLon - b.minLon) * (b.maxLat - b.minLat) ≤ maxArea) ∧
    (raw.foldl (loadOne now maxArea) st).2 =
      (raw.foldl (loadOne now maxArea) st).1.filterMap specCentroidOf := by
  induction raw generalizing st with
  | nil => exact ⟨h1, h2⟩
  | cons f rest ih =>
    simp only [List.foldl_cons]
    obtain ⟨g1, g2⟩ := loadOne_inv now maxArea st f h1 h2
    exact ih _ g1 g2

theorem oversizedRaw_loads_empty (now : ℚ) :
    loadAllImages now maxImageAreaDeg2 [oversizedRaw] = ([], []) := by
  have hbb : getBbox oversizedRaw.geometry = some ⟨0, 0, 5, 1⟩ := by
    norm_num [oversizedRaw, getBbox, processBbox, min_def, max_def]
  simp only [loadAllImages, List.foldl_cons, List.foldl_nil]
  exact loadOne_skip now maxImageAreaDeg2 ([], []) oversizedRaw ⟨0, 0, 5, 1⟩ hbb
    (by norm_num [maxImageAreaDeg2])

theorem pointRaw_eval :
    loadAllImages 0 maxImageAreaDeg2 [pointRaw] =
      ([⟨some (.pt 0 0), "s", none, "#9ca3af", "", none, some ⟨0, 0, 0, 0⟩⟩],
       [⟨0, 0, "s", "#9ca3af"⟩]) := by
  have hbb : getBbox pointRaw.geometry = some ⟨0, 0, 0, 0⟩ := rfl
  simp only [loadAllImages, List.foldl_cons, List.foldl_nil, loadOne, hbb,
    decide_eq_true_eq]
  rw [if_neg (by norm_num [maxImageAreaDeg2])]
  norm_num [pointRaw, parseOamDate, getAgeColor, getAgeClass, getAgeInYears, ageColors]
  exact fun h => absurd h (by decide)

/-- C4: at Provider B load time, every raw feature whose bbox area exceeds
`CONFIG.oam.maxImageAreaDeg2 = 1.0` deg² is excluded entirely — no surviving
session feature has a bbox of area above the limit, every centroid belongs
to a surviving feature — and the spec scenario holds: a catalog with one
feature of bbox area 5.0 deg² loads to an empty feature set and no
centroids. -/
theorem oam_area_filter_spec (now : ℚ) (raw : List RawOamFeature) :
    maxImageAreaDeg2 = 1 ∧
    (∀ ef ∈ (loadAllImages now maxImageAreaDeg2 raw).1, ∀ b : Bbox, ef.bbox = some b →
      (b.maxLon - b.minLon) * (b.maxLat - b.minLat) ≤ maxImageAreaDeg2) ∧
    (∀ c ∈ (loadAllImages now maxImageAreaDeg2 raw).2,
      ∃ ef ∈ (loadAllImages now maxImageAreaDeg2 raw).1, c.oamId = ef.oamId) ∧
    loadAllImages now maxImageAreaDeg2 [oversizedRaw] = ([], []) := by
  obtain ⟨g1, g2⟩ :=
    loadAll_foldl_inv now maxImageAreaDeg2 raw ([], []) (by simp) (by simp)
  have g2e : (loadAllImages now maxImageAreaDeg2 raw).2 =
      (loadAllImages now maxImageAreaDeg2 raw).1.filterMap specCentroidOf := g2
  refine ⟨rfl, g1, ?_, oversizedRaw_loads_empty now⟩
  intro c hc
  rw [g2e] at hc
  rcases List.mem_filterMap.mp hc with ⟨ef, hef, hspec⟩
  refine ⟨ef, hef, ?_⟩
  rcases hb : ef.bbox with _ | b
  · rw [specCentroidOf, hb] at hspec
    simp at hspec
  · rw [specCentroidOf, hb] at hspec
    simp only [Option.map_some', Option.some.injEq] at hspec
    rw [← hspec]

/-- Witness for C4 at a concrete catalog: the point feature survives the
load and its bbox `[0,0,0,0]` has area at most the limit. -/
theorem oam_area_filter_spec_witness :
    ((0 : ℚ) - 0) * ((0 : ℚ) - 0) ≤ maxImageAreaDeg2 :=
  (oam_area_filter_spec 0 [pointRaw]).2.1
    ⟨some (.pt 0 0), "s", none, "#9ca3af", "", none, some ⟨0, 0, 0, 0⟩⟩
    (by simp [pointRaw_eval]) ⟨0, 0, 0, 0⟩ rfl

/-- C9 (amended): the centroid list `loadAllImages` builds is exactly one
midpoint-of-bbox centroid per loaded feature that has a computable bbox —
features without one get no centroid, and no feature ever gets more than
one label point. -/
theorem oam_centroids_spec (now maxArea : ℚ) (raw : List RawOamFeature) :
    (loadAllImages now maxArea raw).2 =
      (loadAllImages now maxArea raw).1.filterMap specCentroidOf :=
  (loadAll_foldl_inv now maxArea raw ([], []) (by simp) (by simp)).2

/-- C9 counterexample: a raw feature with a null geometry is loaded as a
session feature but gets no centroid, so it is not the case that every
loaded feature has exactly one centroid. -/
theorem oam_centroid_missing_counterexample :
    (loadAllImages 0 1 [noGeomRaw]).1.length = 1 ∧
    (loadAllImages 0 1 [noGeomRaw]).2.length = 0 := by decide

/-! ## Decimal string lemmas for `parseEsriDate` -/

theorem length_padVals (k : Nat) : ∀ n : Nat, (padVals k n).length = k := by
  induction k with
  | zero => intro n; rfl
  | succ k ih => intro n; simp [padVals, ih]

theorem padChars_eq_map (k : Nat) : ∀ n : Nat, padChars k n = (padVals k n).map digitChar := by
  induction k with
  | zero => intro n; rfl
  | succ k ih => intro n; simp [padChars, padVals, ih]

theorem length_padChars (k n : Nat) : (padChars k n).length = k := by
  rw [padChars_eq_map, List.length_map, length_padVals]

theorem padVals_lt (k : Nat) : ∀ n : Nat, ∀ v ∈ padVals k n, v < 10 := by
  induction k with
  | zero => intro n v hv; simp [padVals] at hv
  | succ k ih =>
    intro n v hv
    rw [padVals] at hv
    rcases List.mem_append.mp hv with h | h
    · exact ih _ v h
    · simp only [List.mem_singleton] at h
      subst h
      exact Nat.mod_lt _ (by norm_num)

theorem natCharsAux_eq_padChars :
    ∀ fuel k n : Nat, 10 ^ k ≤ n → n < 10 ^ (k + 1) → k + 1 ≤ fuel →
      natCharsAux fuel n = padChars (k + 1) n := by
  intro fuel
  induction fuel with
  | zero => intro k n h1 h2 h3; omega
  | succ f ih =>
    intro k n h1 h2 h3
    simp only [natCharsAux]
    by_cases hn : n < 10
    · rw [if_pos hn]
      have hk : k = 0 := by
        by_contra hk
        have h10 : (10 : ℕ) ≤ 10 ^ k := by
          calc (10 : ℕ) = 10 ^ 1 := by norm_num
          _ ≤ 10 ^ k := Nat.pow_le_pow_right (by norm_num) (by omega)
        omega
      subst hk
      simp [padChars, Nat.mod_eq_of_lt hn]
    · rw [if_neg hn]
      push_neg at hn
      rcases k with _ | k2
      · exfalso
        have : n < 10 ^ 1 := h2
        simp at this
        omega
      · have h1a : 10 ^ k2 ≤ n / 10 := by
          rw [Nat.le_div_iff_mul_le (by norm_num)]
          calc 10 ^ k2 * 10 = 10 ^ (k2 + 1) := by ring
          _ ≤ n := h1
        have h2a : n / 10 < 10 ^ (k2 + 1) := by
          rw [Nat.div_lt_iff_lt_mul (by norm_num)]
          calc n < 10 ^ (k2 + 1 + 1) := h2
          _ = 10 ^ (k2 + 1) * 10 := by ring
        rw [ih k2 (n / 10) h1a h2a (by omega)]
        rfl

theorem padVals_append (j : Nat) : ∀ k b a : Nat, b < 10 ^ k →
    padVals (j + k) (a * 10 ^ k + b) = padVals j a ++ padVals k b := by
  intro k
  induction k with
  | zero =>
    intro b a hb
    have hb0 : b = 0 := by
      simp at hb
      omega
    subst hb0
    simp [padVals]
  | succ k ih =>
    intro b a hb
    have hb1 : b / 10 < 10 ^ k := by
      rw [Nat.div_lt_iff_lt_mul (by norm_num)]
      calc b < 10 ^ (k + 1) := hb
      _ = 10 ^ k * 10 := by ring
    have hdiv : (a * 10 ^ (k + 1) + b) / 10 = a * 10 ^ k + b / 10 := by
      rw [show a * 10 ^ (k + 1) + b = b + 10 * (a * 10 ^ k) by ring]
      rw [Nat.add_mul_div_left _ _ (by norm_num : (0 : ℕ) < 10)]
      omega
    have hmod : (a * 10 ^ (k + 1) + b) % 10 = b % 10 := by
      rw [show a * 10 ^ (k + 1) + b = b + a * 10 ^ k * 10 by ring]
      rw [Nat.add_mul_mod_self_right]
    rw [show j + (k + 1) = (j + k) + 1 by omega]
    simp only [padVals]
    rw [hdiv, hmod, ih (b / 10) a hb1, List.append_assoc]

theorem padChars_append (j k a b : Nat) (hb : b < 10 ^ k) :
    padChars (j + k) (a * 10 ^ k + b) = padChars j a ++ padChars k b := by
  rw [padChars_eq_map, padChars_eq_map, padChars_eq_map, padVals_append j k b a hb,
    List.map_append]

theorem digitsToNat_append (xs : List Nat) : ∀ (acc : Nat) (ys : List Nat),
    digitsToNat acc (xs ++ ys) = digitsToNat (digitsToNat acc xs) ys := by
  induction xs with
  | nil => intro acc ys; rfl
  | cons x xs ih => intro acc ys; simp [digitsToNat, ih]

theorem digitsToNat_padVals (k : Nat) : ∀ acc n : Nat,
    digitsToNat acc (padVals k n) = acc * 10 ^ k + n % 10 ^ k := by
  induction k with
  | zero =>
    intro acc n
    simp [padVals, digitsToNat, Nat.mod_one]
  | succ k ih =>
    intro acc n
    rw [padVals, digitsToNat_append, ih]
    simp only [digitsToNat]
    have hsplit : n % 10 ^ (k + 1) = n % 10 + 10 * (n / 10 % 10 ^ k) := by
      rw [pow_succ']
      exact Nat.mod_mul
    rw [hsplit]
    ring

theorem digitChar_toNat (d : Nat) (hd : d < 10) : (digitChar d).toNat = 48 + d := by
  interval_cases d <;> decide

theorem digitVal?_digitChar (d : Nat) (hd : d < 10) : digitVal? (digitChar d) = some d := by
  simp only [digitVal?, digitChar_toNat d hd]
  rw [if_pos (by omega)]
  congr 1
  omega

theorem takeDigitVals_map (vs : List Nat) (h : ∀ v ∈ vs, v < 10) :
    takeDigitVals (vs.map digitChar) = vs := by
  induction vs with
  | nil => rfl
  | cons v vs ih =>
    simp only [List.map_cons, takeDigitVals, digitVal?_digitChar v (h v (by simp))]
    rw [ih fun w hw => h w (by simp [hw])]

theorem digitChar_ne_dash (d : Nat) (hd : d < 10) : digitChar d ≠ '-' := by
  interval_cases d <;> decide

theorem digitChar_ne_plus (d : Nat) (hd : d < 10) : digitChar d ≠ '+' := by
  interval_cases d <;> decide

theorem jsParseInt_digits (vs : List Nat) (h : ∀ v ∈ vs, v < 10) (hne : vs ≠ []) :
    jsParseInt (String.mk (vs.map digitChar)) = some ((digitsToNat 0 vs : Nat) : Int) := by
  rcases vs with _ | ⟨v, vs⟩
  · exact absurd rfl hne
  · simp only [List.map_cons, jsParseInt]
    rw [if_neg (digitChar_ne_dash v (h v (by simp)))]
    rw [if_neg (digitChar_ne_plus v (h v (by simp)))]
    have htake : takeDigitVals (digitChar v :: vs.map digitChar) = v :: vs := by
      have hmap := takeDigitVals_map (v :: vs) h
      simpa using hmap
    rw [htake]

theorem jsParseInt_padChars (k n : Nat) (hk : 1 ≤ k) (hn : n < 10 ^ k) :
    jsParseInt (String.mk (padChars k n)) = some ((n : Nat) : Int) := by
  rw [padChars_eq_map]
  rw [jsParseInt_digits (padVals k n) (padVals_lt k n) ?hne]
  · congr 2
    rw [digitsToNat_padVals, Nat.mod_eq_of_lt hn]
    simp
  case hne =>
    intro hnil
    have hlen := length_padVals k n
    rw [hnil] at hlen
    simp at hlen
    omega

theorem parseEsriDate_falsy (v : JsValue) (h : v.falsy = true) :
    parseEsriDate v = none := by
  simp only [parseEsriDate]
  rw [if_pos (by simp [h])]

theorem parseEsriDate_not_eight (v : JsValue) (h : v.jsToString.length ≠ 8) :
    parseEsriDate v = none := by
  simp only [parseEsriDate]
  by_cases h1 : (v.falsy || decide (v = .str "Null") || decide (v = .str "null")) = true
  · rw [if_pos h1]
  · rw [if_neg h1, if_pos h]

theorem parseEsriDate_num_eight (y m d : Nat)
    (hy1 : 1000 ≤ y) (hy2 : y ≤ 9999) (hm : m ≤ 99) (hd : d ≤ 99) :
    parseEsriDate (.num ((y * 10000 + m * 100 + d : ℕ) : ℤ)) =
      some (.mk (y : ℤ) ((m : ℤ) - 1) (d : ℤ)) := by
  set n : Nat := y * 10000 + m * 100 + d with hn
  have hp7 : (10 : ℕ) ^ 7 = 10000000 := by norm_num
  have hp8 : (10 : ℕ) ^ 8 = 100000000 := by norm_num
  have hlow : 10 ^ 7 ≤ n := by rw [hp7]; omega
  have hhigh : n < 10 ^ 8 := by rw [hp8]; omega
  have hsplit : padChars 8 n = padChars 4 y ++ padChars 2 m ++ padChars 2 d := by
    have hpow4 : (10 : ℕ) ^ 4 = 10000 := by norm_num
    have hpow2 : (10 : ℕ) ^ 2 = 100 := by norm_num
    have hmd : m * 100 + d < 10 ^ 4 := by rw [hpow4]; omega
    have hd2 : d < 10 ^ 2 := by rw [hpow2]; omega
    have h1 : padChars 8 n = padChars 4 y ++ padChars 4 (m * 100 + d) := by
      have heq : n = y * 10 ^ 4 + (m * 100 + d) := by rw [hpow4, hn]; ring
      rw [heq]
      exact padChars_append 4 4 y (m * 100 + d) hmd
    have h2 : padChars 4 (m * 100 + d) = padChars 2 m ++ padChars 2 d := by
      have heq : m * 100 + d = m * 10 ^ 2 + d := by rw [hpow2]
      rw [heq]
      exact padChars_append 2 2 m d hd2
    rw [h1, h2, List.append_assoc]
  have hstr : (JsValue.num ((n : ℕ) : ℤ)).jsToString = String.mk (padChars 8 n) := by
    simp only [JsValue.jsToString, jsIntToString]
    rw [if_neg (by omega)]
    have htn : ((n : ℕ) : ℤ).toNat = n := by simp
    rw [htn]
    congr 1
    exact natCharsAux_eq_padChars (n + 1) 7 n hlow hhigh (by omega)
  have hA : (padChars 4 y).length = 4 := length_padChars 4 y
  have hB : (padChars 2 m).length = 2 := length_padChars 2 m
  have hC : (padChars 2 d).length = 2 := length_padChars 2 d
  have hlen : (String.mk (padChars 8 n)).length = 8 := by
    show (padChars 8 n).length = 8
    exact length_padChars 8 n
  have hsub1 : jsSubstring (String.mk (padChars 8 n)) 0 4 = String.mk (padChars 4 y) := by
    simp only [jsSubstring, hsplit, List.drop_zero, List.append_assoc]
    norm_num
    rw [List.take_left' hA]
  have hsub2 : jsSubstring (String.mk (padChars 8 n)) 4 6 = String.mk (padChars 2 m) := by
    simp only [jsSubstring, hsplit, List.append_assoc]
    norm_num
    rw [List.drop_left' hA, List.take_left' hB]
  have hsub3 : jsSubstring (String.mk (padChars 8 n)) 6 8 = String.mk (padChars 2 d) := by
    simp only [jsSubstring, hsplit]
    norm_num
    have hAB : (padChars 4 y ++ padChars 2 m).length = 6 := by
      rw [List.length_append, hA, hB]
    rw [← List.append_assoc, List.drop_left' hAB, List.take_of_length_le (le_of_eq hC)]
  have hy4 : y < 10 ^ 4 := by norm_num; omega
  have hm2 : m < 10 ^ 2 := by norm_num; omega
  have hd2 : d < 10 ^ 2 := by norm_num; omega
  simp only [parseEsriDate]
  rw [if_neg ?hcond]
  case hcond =>
    simp only [JsValue.falsy, Bool.or_eq_true, decide_eq_true_eq]
    push_neg
    refine ⟨⟨?_, by simp⟩, by simp⟩
    omega
  rw [hstr]
  rw [if_neg (by rw [hlen]; simp)]
  rw [hsub1, hsub2, hsub3]
  rw [jsParseInt_padChars 4 y (by norm_num) hy4,
    jsParseInt_padChars 2 m (by norm_num) hm2,
    jsParseInt_padChars 2 d (by norm_num) hd2]

/-- C10: `parseEsriDate` is total and never throws: it returns null for
every falsy input and for the strings "Null" and "null", null for every
input whose decimal string representation is not exactly 8 characters, and
for every 8-character numeric value `YYYYMMDD` the local
`Date(year, month - 1, day)`; a 7-digit date number yields null, silently
classifying as unknown rather than erroring. -/
theorem parseEsriDate_total_spec :
    (∀ v : JsValue, v.falsy = true → parseEsriDate v = none) ∧
    parseEsriDate (.str "Null") = none ∧
    parseEsriDate (.str "null") = none ∧
    (∀ v : JsValue, v.jsToString.length ≠ 8 → parseEsriDate v = none) ∧
    (∀ y m d : Nat, 1000 ≤ y → y ≤ 9999 → m ≤ 99 → d ≤ 99 →
      parseEsriDate (.num ((y * 10000 + m * 100 + d : ℕ) : ℤ)) =
        some (.mk (y : ℤ) ((m : ℤ) - 1) (d : ℤ))) ∧
    parseEsriDate (.num 2022105) = none :=
  ⟨parseEsriDate_falsy, by decide, by decide, parseEsriDate_not_eight,
   parseEsriDate_num_eight, by decide⟩

/-- Witness for C10: the 8-digit value 20220205 parses to the constructor
arguments (2022, 1, 5). -/
theorem parseEsriDate_total_spec_witness :
    parseEsriDate (.num ((2022 * 10000 + 2 * 100 + 5 : ℕ) : ℤ)) =
      some (.mk ((2022 : ℕ) : ℤ) (((2 : ℕ) : ℤ) - 1) ((5 : ℕ) : ℤ)) :=
  parseEsriDate_total_spec.2.2.2.2.1 2022 2 5 (by norm_num) (by norm_num)
    (by norm_num) (by norm_num)

end OsmCarbonDate
